import Mathlib

/-!
Shallow embedding of the ignite-client-rust wire-protocol core
(`src/protocol.rs`, `src/len.rs`, `src/ignite_client.rs`).

Byte buffers are `List Nat` (each entry one byte).  Rust strings are
represented by their UTF-8 byte sequences (`List Nat`), since a Rust
`String` is exactly a byte vector guaranteed to be valid UTF-8.
Machine integers are `Int` with explicit reductions modulo `2^w` where
the Rust code can wrap.  A Rust slice index `data[i]` that is out of
bounds panics; decoders therefore return a three-valued result:
`ok`, `err` (an `io::Error` returned by the function), or `oob`
(an out-of-bounds index panic).
-/

/-! ## Byte-level primitives -/

/-- Little-endian byte emission: `leBytes w v` is the `w` low bytes of `v`. -/
def leBytes : Nat → Nat → List Nat
  | 0, _ => []
  | w + 1, v => v % 256 :: leBytes w (v / 256)

/-- `BufMut::put_i16_le`: two's-complement little-endian bytes of an i16. -/
def put_i16_le (x : Int) : List Nat := leBytes 2 ((x % 65536).toNat)

/-- `BufMut::put_i32_le`: two's-complement little-endian bytes of an i32. -/
def put_i32_le (x : Int) : List Nat := leBytes 4 ((x % 4294967296).toNat)

/-- `BufMut::put_i64_le`: two's-complement little-endian bytes of an i64. -/
def put_i64_le (x : Int) : List Nat := leBytes 8 ((x % 18446744073709551616).toNat)

/-- Reinterpret an unsigned 16-bit value as a signed i16. -/
def i16ofU16 (u : Nat) : Int := if u < 32768 then (u : Int) else (u : Int) - 65536

/-- Reinterpret an unsigned 32-bit value as a signed i32. -/
def i32ofU32 (u : Nat) : Int :=
  if u < 2147483648 then (u : Int) else (u : Int) - 4294967296

/-- Reinterpret an unsigned 64-bit value as a signed i64. -/
def i64ofU64 (u : Nat) : Int :=
  if u < 9223372036854775808 then (u : Int) else (u : Int) - 18446744073709551616

/-- `i16::from_le_bytes([data[i], data[i+1]])`; `none` models the panic when
an index is out of bounds. -/
def i16at (d : List Nat) (i : Nat) : Option Int :=
  match d[i]?, d[i + 1]? with
  | some b0, some b1 => some (i16ofU16 (b0 + 256 * b1))
  | _, _ => none

/-- `i32::from_le_bytes([data[i], .., data[i+3]])`. -/
def i32at (d : List Nat) (i : Nat) : Option Int :=
  match d[i]?, d[i + 1]?, d[i + 2]?, d[i + 3]? with
  | some b0, some b1, some b2, some b3 =>
      some (i32ofU32 (b0 + 256 * b1 + 65536 * b2 + 16777216 * b3))
  | _, _, _, _ => none

/-- `i64::from_le_bytes([data[i], .., data[i+7]])`. -/
def i64at (d : List Nat) (i : Nat) : Option Int :=
  match d[i]?, d[i + 1]?, d[i + 2]?, d[i + 3]?,
        d[i + 4]?, d[i + 5]?, d[i + 6]?, d[i + 7]? with
  | some b0, some b1, some b2, some b3, some b4, some b5, some b6, some b7 =>
      some (i64ofU64 (b0 + 256 * b1 + 65536 * b2 + 16777216 * b3
        + 4294967296 * b4 + 1099511627776 * b5 + 281474976710656 * b6
        + 72057594037927936 * b7))
  | _, _, _, _, _, _, _, _ => none

/-- Rust range slice `data[a..b]`; `none` models the panic when the range is
invalid or extends past the end of the buffer. -/
def sliceRange? (d : List Nat) (a b : Nat) : Option (List Nat) :=
  if a ≤ b ∧ b ≤ d.length then some ((d.drop a).take (b - a)) else none

/-- Rust suffix slice `data[a..]`; `none` models the panic when `a` exceeds
the buffer length. -/
def dropFrom? (d : List Nat) (a : Nat) : Option (List Nat) :=
  if a ≤ d.length then some (d.drop a) else none

/-- Rust cast `x as usize` applied to an `i32` value (sign-extends, then
reinterprets as an unsigned 64-bit machine word). -/
def usizeOfI32 (x : Int) : Nat := (x % 18446744073709551616).toNat

/-- Wrapping i64 increment domain: reduce an integer into `[-2^63, 2^63)`,
as `AtomicI64::fetch_add` does on overflow. -/
def wrap_i64 (x : Int) : Int :=
  (x + 9223372036854775808) % 18446744073709551616 - 9223372036854775808

/-- Rust cast `b as u8` for a `bool`. -/
def boolByte (b : Bool) : Nat := if b then 1 else 0

/-! ## UTF-8 validation (`String::from_utf8`) -/

/-- A UTF-8 continuation byte. -/
def isCont (b : Nat) : Bool := decide (128 ≤ b) && decide (b ≤ 191)

/-- Constraint on the first continuation byte of a three-byte sequence. -/
def utf8First3 (b c1 : Nat) : Bool :=
  if b = 224 then decide (160 ≤ c1) && decide (c1 ≤ 191)
  else if b = 237 then decide (128 ≤ c1) && decide (c1 ≤ 159)
  else isCont c1

/-- Constraint on the first continuation byte of a four-byte sequence. -/
def utf8First4 (b c1 : Nat) : Bool :=
  if b = 240 then decide (144 ≤ c1) && decide (c1 ≤ 191)
  else if b = 244 then decide (128 ≤ c1) && decide (c1 ≤ 143)
  else isCont c1

/-- `String::from_utf8` succeeds exactly on valid UTF-8 byte sequences. -/
def utf8Valid : List Nat → Bool
  | [] => true
  | b :: rest =>
    if b ≤ 127 then utf8Valid rest
    else if b < 194 then false
    else if b ≤ 223 then
      match rest with
      | c1 :: t => isCont c1 && utf8Valid t
      | [] => false
    else if b ≤ 239 then
      match rest with
      | c1 :: c2 :: t => utf8First3 b c1 && isCont c2 && utf8Valid t
      | _ => false
    else if b ≤ 244 then
      match rest with
      | c1 :: c2 :: c3 :: t =>
          utf8First4 b c1 && isCont c2 && isCont c3 && utf8Valid t
      | _ => false
    else false

/-! ## Length constants (`src/len.rs`) -/

namespace len

def CACHE_ID : Nat := 4
def COLLOCATED : Nat := 1
def CURSOR_PAGE_SIZE : Nat := 4
def DISTRIBUTED_JOIN : Nat := 1
def ENFORCE_JOIN_ORDER : Nat := 1
def INCLUDE_FIELD_NAMES : Nat := 1
def LAZY : Nat := 1
def LOCAL_QUERY : Nat := 1
def MAX_ROWS : Nat := 4
def QUERY_ARG_COUNT : Nat := 4
def REPLICATED_ONLY : Nat := 1
def STATEMENT_TYPE : Nat := 1
def TIMEOUT : Nat := 8

/-- `len::str`: wire size of a general string field (marker + i32 length + bytes). -/
def str (s : List Nat) : Nat := 1 + 4 + s.length

end len

/-! ## Op codes -/

namespace op_const

/-- Modelled from the spec: the repository's `op_const` module is not among
the provided sources; the spec fixes only a closed two-code op table
(`QUERY_SQL`, `QUERY_SQL_FIELDS`).  The numeric values are taken as the
distinct codes 2002 and 2004; no theorem below depends on the numerals. -/
def QUERY_SQL : Int := 2002

/-- Modelled from the spec: second entry of the closed op-code table. -/
def QUERY_SQL_FIELDS : Int := 2004

end op_const

/-! ## Handshake request (`protocol.rs` 18-64) -/

structure HandshakeRequest where
  major_version : Int
  minor_version : Int
  patch_version : Int
  username : List Nat
  password : List Nat

namespace HandshakeRequest

/-- `<HandshakeRequest as Encode>::length`. -/
def lengthFn (r : HandshakeRequest) : Nat :=
  1 + 2 + 2 + 2 + 1 + 4 + r.username.length + 4 + r.password.length

/-- `<HandshakeRequest as Encode>::encode`. -/
def encode (r : HandshakeRequest) : List Nat :=
  put_i32_le (r.lengthFn : Nat) ++ [1]
    ++ put_i16_le r.major_version ++ put_i16_le r.minor_version
    ++ put_i16_le r.patch_version ++ [2]
    ++ put_i32_le (r.username.length : Nat) ++ r.username
    ++ put_i32_le (r.password.length : Nat) ++ r.password

end HandshakeRequest

/-! ## Decode results -/

/-- Reason carried by an `io::Error` the decoders return. -/
inductive ErrKind where
  | empty
  | invalidData
deriving DecidableEq

/-- Outcome of running a Rust decoder: a value, a returned `io::Error`, or an
out-of-bounds index panic (`oob`). -/
inductive DecodeResult (α : Type) where
  | ok : α → DecodeResult α
  | err : ErrKind → DecodeResult α
  | oob : DecodeResult α
deriving DecidableEq

/-! ## Handshake response (`protocol.rs` 66-101) -/

inductive HandshakeResponse where
  | Success
  | Failure (major_version minor_version patch_version : Int)
      (error_message : List Nat)
deriving DecidableEq

namespace HandshakeResponse

/-- `<HandshakeResponse as Decode>::decode`. -/
def decode (data : List Nat) : DecodeResult HandshakeResponse :=
  if data.isEmpty then .err .empty
  else
    match data[0]? with
    | none => .oob
    | some success_flag =>
      if success_flag == 1 then .ok .Success
      else
        match i16at data 1, i16at data 3, i16at data 5 with
        | some major_version, some minor_version, some patch_version =>
          match dropFrom? data 7 with
          | none => .oob
          | some msg =>
            if utf8Valid msg then
              .ok (.Failure major_version minor_version patch_version msg)
            else .err .invalidData
        | _, _, _ => .oob

end HandshakeResponse

/-! ## Query requests (`protocol.rs` 103-162, 252-329, 356-471) -/

/-- `StatementType` (`protocol.rs` 375-381). -/
inductive StatementType where
  | ANY
  | SELECT
  | UPDATE
deriving DecidableEq

/-- Rust cast `self.statement_type as u8` (the `#[repr(u8)]` discriminants). -/
def StatementType.toByte : StatementType → Nat
  | .ANY => 0
  | .SELECT => 1
  | .UPDATE => 2

/-- `QuerySqlRequest`.  The `query_args` field is `Vec<Box<dyn Any>>` in the
source; the element type is therefore an arbitrary type parameter `α`. -/
structure QuerySqlRequest (α : Type) where
  cache_id : Int
  table : List Nat
  sql : List Nat
  query_arg_count : Int
  query_args : List α
  distributed_join : Bool
  local_query : Bool
  replicated_only : Bool
  cursor_page_size : Int
  timeout_milliseconds : Int

namespace QuerySqlRequest

/-- `<QuerySqlRequest as Encode>::length`. -/
def lengthFn (r : QuerySqlRequest α) : Nat :=
  len.CACHE_ID + 1 + len.str r.table + len.str r.sql + len.QUERY_ARG_COUNT
    + len.DISTRIBUTED_JOIN + len.LOCAL_QUERY + len.REPLICATED_ONLY
    + len.CURSOR_PAGE_SIZE + len.TIMEOUT

/-- `<QuerySqlRequest as Encode>::encode`.  The `// todo args` comment in the
source: no argument values are written, only `query_arg_count`. -/
def encode (r : QuerySqlRequest α) : List Nat :=
  put_i32_le r.cache_id ++ [0] ++ [9]
    ++ put_i32_le (r.table.length : Nat) ++ r.table
    ++ [9] ++ put_i32_le (r.sql.length : Nat) ++ r.sql
    ++ put_i32_le r.query_arg_count
    ++ [boolByte r.distributed_join] ++ [boolByte r.local_query]
    ++ [boolByte r.replicated_only]
    ++ put_i32_le r.cursor_page_size ++ put_i64_le r.timeout_milliseconds

end QuerySqlRequest

/-- `QuerySqlFieldsRequest`; `query_args` as in `QuerySqlRequest`. -/
structure QuerySqlFieldsRequest (α : Type) where
  cache_id : Int
  schema : List Nat
  cursor_page_size : Int
  max_rows : Int
  sql : List Nat
  query_arg_count : Int
  query_args : List α
  statement_type : StatementType
  distributed_join : Bool
  local_query : Bool
  replicated_only : Bool
  enforce_join_order : Bool
  collocated : Bool
  lazy : Bool
  timeout_milliseconds : Int
  include_field_names : Bool

namespace QuerySqlFieldsRequest

/-- `<QuerySqlFieldsRequest as Encode>::length`. -/
def lengthFn (r : QuerySqlFieldsRequest α) : Nat :=
  len.CACHE_ID + 1 + len.str r.schema + len.CURSOR_PAGE_SIZE + len.MAX_ROWS
    + len.str r.sql + len.QUERY_ARG_COUNT + len.STATEMENT_TYPE
    + len.DISTRIBUTED_JOIN + len.LOCAL_QUERY + len.REPLICATED_ONLY
    + len.ENFORCE_JOIN_ORDER + len.COLLOCATED + len.LAZY + len.TIMEOUT
    + len.INCLUDE_FIELD_NAMES

/-- `<QuerySqlFieldsRequest as Encode>::encode` (`// todo args` as above). -/
def encode (r : QuerySqlFieldsRequest α) : List Nat :=
  put_i32_le r.cache_id ++ [0] ++ [9]
    ++ put_i32_le (r.schema.length : Nat) ++ r.schema
    ++ put_i32_le r.cursor_page_size ++ put_i32_le r.max_rows
    ++ [9] ++ put_i32_le (r.sql.length : Nat) ++ r.sql
    ++ put_i32_le r.query_arg_count
    ++ [r.statement_type.toByte]
    ++ [boolByte r.distributed_join] ++ [boolByte r.local_query]
    ++ [boolByte r.replicated_only] ++ [boolByte r.enforce_join_order]
    ++ [boolByte r.collocated] ++ [boolByte r.lazy]
    ++ put_i64_le r.timeout_milliseconds
    ++ [boolByte r.include_field_names]

end QuerySqlFieldsRequest

/-- `RequestType` (`protocol.rs` 109-112). -/
inductive RequestType (α : Type) where
  | QuerySql (r : QuerySqlRequest α)
  | QuerySqlFields (r : QuerySqlFieldsRequest α)

/-- `Request` (`protocol.rs` 103-107). -/
structure Request (α : Type) where
  op_code : Int
  request_id : Int
  body : RequestType α

namespace Request

/-- `Request::new_query_sql`. -/
def new_query_sql (request_id : Int) (q : QuerySqlRequest α) : Request α :=
  { op_code := op_const.QUERY_SQL, request_id, body := .QuerySql q }

/-- `Request::new_query_sql_fields`. -/
def new_query_sql_fields (request_id : Int) (q : QuerySqlFieldsRequest α) :
    Request α :=
  { op_code := op_const.QUERY_SQL_FIELDS, request_id, body := .QuerySqlFields q }

/-- Body bytes selected by the `match` in `<Request as Encode>::encode`. -/
def bodyBytes (r : Request α) : List Nat :=
  match r.body with
  | .QuerySql q => q.encode
  | .QuerySqlFields q => q.encode

/-- `<Request as Encode>::length`. -/
def lengthFn (r : Request α) : Nat :=
  2 + 8 + match r.body with
    | .QuerySql q => q.lengthFn
    | .QuerySqlFields q => q.lengthFn

/-- `<Request as Encode>::encode`. -/
def encode (r : Request α) : List Nat :=
  put_i32_le (r.lengthFn : Nat) ++ put_i16_le r.op_code
    ++ put_i64_le r.request_id ++ r.bodyBytes

end Request

/-! ## Query responses (`protocol.rs` 164-250, 331-354, 473-536) -/

/-- `QuerySqlResponse`. -/
structure QuerySqlResponse where
  cursor_id : Int
  row_count : Int
  has_more : Bool
deriving DecidableEq

/-- `<QuerySqlResponse as Decode>::decode` (`protocol.rs` 337-354). -/
def QuerySqlResponse.decode (data : List Nat) : DecodeResult QuerySqlResponse :=
  if data.isEmpty then .err .empty
  else
    match i64at data 0 with
    | none => .oob
    | some cursor_id =>
      match i32at data 8 with
      | none => .oob
      | some row_count =>
        match data[12]? with
        | none => .oob
        | some b => .ok { cursor_id, row_count, has_more := b == 1 }

/-- `QuerySqlFieldsResponse`. -/
structure QuerySqlFieldsResponse where
  cursor_id : Int
  column_count : Int
  column_names : List (List Nat)
  first_page_row_count : Int
  has_more : Bool
deriving DecidableEq

/-- The column-name loop of `QuerySqlFieldsResponse::decode`
(`protocol.rs` 492-509): starting at `offset`, run the loop body the given
number of times; return the names read and the final offset. -/
def decodeColumns (data : List Nat) :
    Nat → Nat → DecodeResult (List (List Nat) × Nat)
  | 0, offset => .ok ([], offset)
  | n + 1, offset =>
    match i32at data (offset + 1) with
    | none => .oob
    | some column_name_length =>
      match sliceRange? data (offset + 5)
          (offset + 5 + usizeOfI32 column_name_length) with
      | none => .oob
      | some nameBytes =>
        if utf8Valid nameBytes then
          match decodeColumns data n (offset + 5 + usizeOfI32 column_name_length) with
          | .ok (names, final) => .ok (nameBytes :: names, final)
          | .err e => .err e
          | .oob => .oob
        else .err .invalidData

/-- `QuerySqlFieldsResponse::decode` (`protocol.rs` 481-536).  The Rust loop
`for _ in 0..column_count` runs `column_count.toNat` times (never for a
negative count). -/
def QuerySqlFieldsResponse.decode (data : List Nat) (has_field_names : Bool) :
    DecodeResult QuerySqlFieldsResponse :=
  if data.isEmpty then .err .empty
  else
    match i64at data 0 with
    | none => .oob
    | some cursor_id =>
      match i32at data 8 with
      | none => .oob
      | some column_count =>
        if has_field_names then
          match decodeColumns data column_count.toNat 12 with
          | .err e => .err e
          | .oob => .oob
          | .ok (column_names, offset) =>
            match i32at data offset with
            | none => .oob
            | some first_page_row_count =>
              match data[offset + 4]? with
              | none => .oob
              | some b =>
                .ok { cursor_id, column_count, column_names,
                      first_page_row_count, has_more := b == 1 }
        else
          match i32at data 12 with
          | none => .oob
          | some first_page_row_count =>
            match data[16]? with
            | none => .oob
            | some b =>
              .ok { cursor_id, column_count, column_names := [],
                    first_page_row_count, has_more := b == 1 }

/-- `ResponseType` (`protocol.rs` 171-174). -/
inductive ResponseType where
  | QuerySql (r : QuerySqlResponse)
  | QuerySqlFields (r : QuerySqlFieldsResponse)
deriving DecidableEq

/-- `Response` (`protocol.rs` 164-169). -/
structure Response where
  request_id : Int
  status_code : Int
  error_message : List Nat
  body : ResponseType
deriving DecidableEq

namespace Response

/-- `Response::decode_query_sql` (`protocol.rs` 177-211). -/
def decode_query_sql (data : List Nat) : DecodeResult Response :=
  if data.isEmpty then .err .empty
  else
    match i64at data 0 with
    | none => .oob
    | some request_id =>
      match i32at data 8 with
      | none => .oob
      | some status_code =>
        if status_code ≠ 0 then
          match i32at data 13 with
          | none => .oob
          | some error_message_length =>
            match sliceRange? data 17 (17 + usizeOfI32 error_message_length) with
            | none => .oob
            | some msg =>
              if utf8Valid msg then
                .ok { request_id, status_code, error_message := msg,
                      body := .QuerySql
                        { cursor_id := 0, row_count := 0, has_more := false } }
              else .err .invalidData
        else
          match dropFrom? data 12 with
          | none => .oob
          | some tail =>
            match QuerySqlResponse.decode tail with
            | .ok q =>
              .ok { request_id, status_code, error_message := [],
                    body := .QuerySql q }
            | .err e => .err e
            | .oob => .oob

/-- `Response::decode_query_sql_fields` (`protocol.rs` 213-249); the success
branch calls `QuerySqlFieldsResponse::decode(&data[12..], true)`. -/
def decode_query_sql_fields (data : List Nat) : DecodeResult Response :=
  if data.isEmpty then .err .empty
  else
    match i64at data 0 with
    | none => .oob
    | some request_id =>
      match i32at data 8 with
      | none => .oob
      | some status_code =>
        if status_code ≠ 0 then
          match i32at data 13 with
          | none => .oob
          | some error_message_length =>
            match sliceRange? data 17 (17 + usizeOfI32 error_message_length) with
            | none => .oob
            | some msg =>
              if utf8Valid msg then
                .ok { request_id, status_code, error_message := msg,
                      body := .QuerySqlFields
                        { cursor_id := 0, column_count := 0,
                          column_names := [], first_page_row_count := 0,
                          has_more := false } }
              else .err .invalidData
        else
          match dropFrom? data 12 with
          | none => .oob
          | some tail =>
            match QuerySqlFieldsResponse.decode tail true with
            | .ok q =>
              .ok { request_id, status_code, error_message := [],
                    body := .QuerySqlFields q }
            | .err e => .err e
            | .oob => .oob

end Response

/-! ## Client state (`src/ignite_client.rs`) -/

/-- The state an `IgniteClient` carries: whether `stream` is `Some` and the
current `request_id` counter (`ignite_client.rs` 12-17).  The stream's
contents live on the network side and are not part of the state. -/
structure IgniteClient where
  has_stream : Bool
  request_id : Int
deriving DecidableEq

namespace IgniteClient

/-- `IgniteClient::new` (`ignite_client.rs` 20-27): no stream,
`AtomicI64::new(0)`. -/
def new : IgniteClient := { has_stream := false, request_id := 0 }

/-- A successful `IgniteClient::connect` (`ignite_client.rs` 29-34): the
stream becomes `Some`. -/
def connect (c : IgniteClient) : IgniteClient := { c with has_stream := true }

/-- `self.request_id.fetch_add(1, Ordering::SeqCst)`: returns the old value
and stores the wrapped successor (`ignite_client.rs` 63, 98). -/
def fetchAdd (c : IgniteClient) : Int × IgniteClient :=
  (c.request_id, { c with request_id := wrap_i64 (c.request_id + 1) })

end IgniteClient

/-- What a query operation does before any response arrives: either it is
refused with the `Not connected` error (no bytes written to the stream), or
it writes one encoded request frame and the client moves to the next state. -/
inductive OpResult where
  | notConnected
  | sent (bytes : List Nat) (next : IgniteClient)
deriving DecidableEq

namespace IgniteClient

/-- The send half of `IgniteClient::query_sql` (`ignite_client.rs` 58-91):
`if let Some(stream) = &mut self.stream` is the only guard; when it holds,
one id is allocated and the encoded request frame is written. -/
def query_sql_send (c : IgniteClient) (r : QuerySqlRequest α) : OpResult :=
  if c.has_stream then
    let (request_id, c') := c.fetchAdd
    .sent (Request.new_query_sql request_id r).encode c'
  else .notConnected

/-- The send half of `IgniteClient::query_sql_fields`
(`ignite_client.rs` 93-126), same guard. -/
def query_sql_fields_send (c : IgniteClient) (r : QuerySqlFieldsRequest α) :
    OpResult :=
  if c.has_stream then
    let (request_id, c') := c.fetchAdd
    .sent (Request.new_query_sql_fields request_id r).encode c'
  else .notConnected

/-- Successive request-id allocations: the ids issued by `n` consecutive
`fetch_add(1)` calls on the client. -/
def allocN : IgniteClient → Nat → List Int
  | _, 0 => []
  | c, n + 1 =>
    let (id, c') := c.fetchAdd
    id :: allocN c' n

end IgniteClient

/-- Externally visible events of a client session, used to talk about what
has happened on a connection so far. -/
inductive ClientEvent where
  | connect
  | handshakeResult (success : Bool)

/-- Effect of one event on the client state, read off the code: `connect`
stores the stream (`ignite_client.rs` 29-34); `handshake` writes and reads
frames but records nothing about the outcome in the client
(`ignite_client.rs` 36-56). -/
def stepEvent (c : IgniteClient) : ClientEvent → IgniteClient
  | .connect => c.connect
  | .handshakeResult _ => c

/-- Client state after a sequence of session events. -/
def runEvents (c : IgniteClient) : List ClientEvent → IgniteClient
  | [] => c
  | e :: es => runEvents (stepEvent c e) es

/-- Spec-side notion (§4.2): the handshake has completed successfully at some
point of the session.  Named `spec…` because the code keeps no such state. -/
def specHandshakeCompleted (es : List ClientEvent) : Bool :=
  es.any fun e =>
    match e with
    | .handshakeResult b => b
    | _ => false

/-- A concrete `QuerySqlRequest` used by closed theorems below
(cache 0, table `T`, sql `S`, no args, flags false, page size 1, timeout 0). -/
def sampleQuerySql : QuerySqlRequest Unit :=
  { cache_id := 0, table := [84], sql := [83], query_arg_count := 0,
    query_args := [], distributed_join := false, local_query := false,
    replicated_only := false, cursor_page_size := 1,
    timeout_milliseconds := 0 }

/-- A concrete `QuerySqlFieldsRequest` used by closed theorems below. -/
def sampleQuerySqlFields : QuerySqlFieldsRequest Unit :=
  { cache_id := 0, schema := [80], cursor_page_size := 1, max_rows := 1,
    sql := [83], query_arg_count := 0, query_args := [],
    statement_type := .SELECT, distributed_join := false,
    local_query := false, replicated_only := false,
    enforce_join_order := false, collocated := false, lazy := false,
    timeout_milliseconds := 0, include_field_names := true }

/-- Wire form of one column-name entry of a `QuerySqlFieldsResponse` body:
type-marker byte, i32 little-endian name length, name bytes.  Used to build
the concrete buffers the decode theorems are stated over. -/
def colEntry (nm : List Nat) : List Nat :=
  9 :: (put_i32_le (nm.length : Nat) ++ nm)

/-- A well-formed `QuerySqlFieldsResponse` success body: cursor id, column
count, the column entries, first-page row count, has-more byte. -/
def fieldsBuf (cid : Int) (names : List (List Nat)) (rc : Int) (hm : Bool) :
    List Nat :=
  put_i64_le cid ++ (put_i32_le (names.length : Nat)
    ++ ((names.map colEntry).flatten ++ (put_i32_le rc ++ [boolByte hm])))

/-! ## Helper lemmas: bytes, shifts, round trips -/

theorem leBytes_length (w : Nat) : ∀ v : Nat, (leBytes w v).length = w := by
  induction w with
  | zero => intro v; rfl
  | succ w ih => intro v; simp [leBytes, ih]

theorem put_i16_le_length (x : Int) : (put_i16_le x).length = 2 :=
  leBytes_length 2 _

theorem put_i32_le_length (x : Int) : (put_i32_le x).length = 4 :=
  leBytes_length 4 _

theorem put_i64_le_length (x : Int) : (put_i64_le x).length = 8 :=
  leBytes_length 8 _

theorem byte_shift (pre l : List Nat) (i : Nat) :
    (pre ++ l)[pre.length + i]? = l[i]? := by
  rw [List.getElem?_append_right (by omega)]
  congr 1
  omega

theorem byte_keepleft (d junk : List Nat) (k : Nat) (h : k < d.length) :
    (d ++ junk)[k]? = d[k]? := by
  rw [List.getElem?_append]
  simp [h]

theorem byte_some_lt {d : List Nat} {i b : Nat} (h : d[i]? = some b) :
    i < d.length :=
  (List.getElem?_eq_some.mp h).1

theorem i16at_shift (pre l : List Nat) (i : Nat) :
    i16at (pre ++ l) (pre.length + i) = i16at l i := by
  unfold i16at
  rw [show pre.length + i + 1 = pre.length + (i + 1) from by omega]
  rw [byte_shift, byte_shift]

theorem i32at_shift (pre l : List Nat) (i : Nat) :
    i32at (pre ++ l) (pre.length + i) = i32at l i := by
  unfold i32at
  rw [show pre.length + i + 1 = pre.length + (i + 1) from by omega,
      show pre.length + i + 2 = pre.length + (i + 2) from by omega,
      show pre.length + i + 3 = pre.length + (i + 3) from by omega]
  rw [byte_shift, byte_shift, byte_shift, byte_shift]

theorem i64at_shift (pre l : List Nat) (i : Nat) :
    i64at (pre ++ l) (pre.length + i) = i64at l i := by
  unfold i64at
  rw [show pre.length + i + 1 = pre.length + (i + 1) from by omega,
      show pre.length + i + 2 = pre.length + (i + 2) from by omega,
      show pre.length + i + 3 = pre.length + (i + 3) from by omega,
      show pre.length + i + 4 = pre.length + (i + 4) from by omega,
      show pre.length + i + 5 = pre.length + (i + 5) from by omega,
      show pre.length + i + 6 = pre.length + (i + 6) from by omega,
      show pre.length + i + 7 = pre.length + (i + 7) from by omega]
  rw [byte_shift, byte_shift, byte_shift, byte_shift,
      byte_shift, byte_shift, byte_shift, byte_shift]

theorem i32at_keepleft (d junk : List Nat) (i : Nat) (h : i + 4 ≤ d.length) :
    i32at (d ++ junk) i = i32at d i := by
  unfold i32at
  rw [byte_keepleft d junk i (by omega), byte_keepleft d junk (i + 1) (by omega),
      byte_keepleft d junk (i + 2) (by omega), byte_keepleft d junk (i + 3) (by omega)]

theorem i64at_keepleft (d junk : List Nat) (i : Nat) (h : i + 8 ≤ d.length) :
    i64at (d ++ junk) i = i64at d i := by
  unfold i64at
  rw [byte_keepleft d junk i (by omega), byte_keepleft d junk (i + 1) (by omega),
      byte_keepleft d junk (i + 2) (by omega), byte_keepleft d junk (i + 3) (by omega),
      byte_keepleft d junk (i + 4) (by omega), byte_keepleft d junk (i + 5) (by omega),
      byte_keepleft d junk (i + 6) (by omega), byte_keepleft d junk (i + 7) (by omega)]

theorem i32at_cons (a b c d : Nat) (rest : List Nat) :
    i32at (a :: b :: c :: d :: rest) 0 =
      some (i32ofU32 (a + 256 * b + 65536 * c + 16777216 * d)) := by
  simp [i32at]

theorem i64at_cons (a b c d e f g h : Nat) (rest : List Nat) :
    i64at (a :: b :: c :: d :: e :: f :: g :: h :: rest) 0 =
      some (i64ofU64 (a + 256 * b + 65536 * c + 16777216 * d
        + 4294967296 * e + 1099511627776 * f + 281474976710656 * g
        + 72057594037927936 * h)) := by
  simp [i64at]

theorem leBytes_four (n : Nat) : leBytes 4 n =
    [n % 256, n / 256 % 256, n / 256 / 256 % 256, n / 256 / 256 / 256 % 256] := rfl

theorem leBytes_eight (n : Nat) : leBytes 8 n =
    [n % 256, n / 256 % 256, n / 256 / 256 % 256, n / 256 / 256 / 256 % 256,
     n / 256 / 256 / 256 / 256 % 256, n / 256 / 256 / 256 / 256 / 256 % 256,
     n / 256 / 256 / 256 / 256 / 256 / 256 % 256,
     n / 256 / 256 / 256 / 256 / 256 / 256 / 256 % 256] := rfl

theorem i32at_leBytes (n : Nat) (rest : List Nat) (h : n < 4294967296) :
    i32at (leBytes 4 n ++ rest) 0 = some (i32ofU32 n) := by
  rw [leBytes_four]
  simp only [List.cons_append, List.nil_append]
  rw [i32at_cons]
  congr 2
  omega

theorem i64at_leBytes (n : Nat) (rest : List Nat) (h : n < 18446744073709551616) :
    i64at (leBytes 8 n ++ rest) 0 = some (i64ofU64 n) := by
  rw [leBytes_eight]
  simp only [List.cons_append, List.nil_append]
  rw [i64at_cons]
  congr 2
  omega

theorem i32at_put (x : Int) (rest : List Nat)
    (h1 : -2147483648 ≤ x) (h2 : x < 2147483648) :
    i32at (put_i32_le x ++ rest) 0 = some x := by
  unfold put_i32_le
  rw [i32at_leBytes _ _ (by omega)]
  unfold i32ofU32
  split
  · congr 1
    omega
  · congr 1
    omega

theorem i64at_put (x : Int) (rest : List Nat)
    (h1 : -9223372036854775808 ≤ x) (h2 : x < 9223372036854775808) :
    i64at (put_i64_le x ++ rest) 0 = some x := by
  unfold put_i64_le
  rw [i64at_leBytes _ _ (by omega)]
  unfold i64ofU64
  split
  · congr 1
    omega
  · congr 1
    omega

theorem i32at_putNat (k : Nat) (rest : List Nat) (h : k < 2147483648) :
    i32at (put_i32_le (k : Nat) ++ rest) 0 = some (k : Int) := by
  rw [i32at_put _ _ (by omega) (by omega)]

theorem usizeOfI32_ofNat (k : Nat) (h : k < 2147483648) :
    usizeOfI32 (k : Nat) = k := by
  unfold usizeOfI32
  omega

theorem sliceRange?_exact (pre mid rest : List Nat) :
    sliceRange? (pre ++ (mid ++ rest)) pre.length (pre.length + mid.length) =
      some mid := by
  unfold sliceRange?
  rw [if_pos ⟨by omega, by simp only [List.length_append]; omega⟩]
  have h1 : (pre ++ (mid ++ rest)).drop pre.length = mid ++ rest :=
    List.drop_left pre (mid ++ rest)
  rw [h1, show pre.length + mid.length - pre.length = mid.length from by omega,
      List.take_left]

theorem dropFrom?_le (d : List Nat) (a : Nat) (h : a ≤ d.length) :
    dropFrom? d a = some (d.drop a) := by
  unfold dropFrom?
  rw [if_pos h]

theorem wrap_i64_small (x : Int) (h1 : 0 ≤ x) (h2 : x < 9223372036854775808) :
    wrap_i64 x = x := by
  unfold wrap_i64
  omega

/-! ## Claim theorems -/

/-- C1: the claim says every decoder either returns a decoded value or a
data-corruption decode error and never panics on truncated input.  The code
violates this: on the one-byte buffer `[0x00]` each decoder reaches an
out-of-bounds slice index (`HandshakeResponse::decode` at `data[1]`, the
envelope decoders inside `i64::from_le_bytes` at `data[1]`, and
`QuerySqlFieldsResponse::decode` at `data[1]`/`data[13]`), i.e. a panic,
modelled here as `oob`. -/
theorem decoders_oob_on_truncated :
    HandshakeResponse.decode [0] = .oob ∧
    Response.decode_query_sql [0] = .oob ∧
    Response.decode_query_sql_fields [0] = .oob ∧
    QuerySqlFieldsResponse.decode [0] true = .oob ∧
    QuerySqlFieldsResponse.decode [0] false = .oob := by
  decide

/-- C5: `HandshakeRequest::encode` emits exactly the layout i32 LE payload
length (1+2+2+2+1+4+|user|+4+|pass|), op marker byte 1, three LE i16 version
fields, client-type marker byte 2, then username and password each as an i32
LE byte length followed by the raw UTF-8 bytes, with no type-marker byte in
front of either string; the whole buffer is 4 bytes longer than the declared
payload length. -/
theorem handshake_request_layout (r : HandshakeRequest) :
    HandshakeRequest.encode r =
      put_i32_le ((1 + 2 + 2 + 2 + 1 + 4 + r.username.length + 4
          + r.password.length : Nat) : Int)
        ++ [1] ++ put_i16_le r.major_version ++ put_i16_le r.minor_version
        ++ put_i16_le r.patch_version ++ [2]
        ++ put_i32_le (r.username.length : Nat) ++ r.username
        ++ put_i32_le (r.password.length : Nat) ++ r.password ∧
    (HandshakeRequest.encode r).length = 4 + HandshakeRequest.lengthFn r := by
  constructor
  · rfl
  · simp [HandshakeRequest.encode, HandshakeRequest.lengthFn,
      List.length_append, put_i32_le_length, put_i16_le_length]
    omega

/-- C10: request encoding is independent of the contents of `query_args`:
two `QuerySqlRequest`s (or `QuerySqlFieldsRequest`s) that agree on every
field except `query_args` produce identical byte buffers and identical
declared lengths — only `query_arg_count` is ever written. -/
theorem encode_ignores_query_args (α : Type) (r : QuerySqlRequest α)
    (rf : QuerySqlFieldsRequest α) (args args2 : List α) :
    QuerySqlRequest.encode { r with query_args := args }
        = QuerySqlRequest.encode r ∧
    QuerySqlRequest.lengthFn { r with query_args := args }
        = QuerySqlRequest.lengthFn r ∧
    QuerySqlFieldsRequest.encode { rf with query_args := args2 }
        = QuerySqlFieldsRequest.encode rf ∧
    QuerySqlFieldsRequest.lengthFn { rf with query_args := args2 }
        = QuerySqlFieldsRequest.lengthFn rf :=
  ⟨rfl, rfl, rfl, rfl⟩

/-- C3 counterexample: the claim says a client whose handshake has not
completed refuses `query_sql`/`query_sql_fields` with a "not ready" error
and writes nothing.  In the code the only guard is `stream.is_some()`:
after `connect` alone (no handshake event at all) both operations proceed
and write a full request frame. -/
theorem query_before_handshake_not_refused :
    specHandshakeCompleted [ClientEvent.connect] = false ∧
    IgniteClient.query_sql_send
        (runEvents IgniteClient.new [ClientEvent.connect]) sampleQuerySql
      = OpResult.sent (Request.new_query_sql 0 sampleQuerySql).encode
          { has_stream := true, request_id := 1 } ∧
    IgniteClient.query_sql_fields_send
        (runEvents IgniteClient.new [ClientEvent.connect]) sampleQuerySqlFields
      = OpResult.sent (Request.new_query_sql_fields 0 sampleQuerySqlFields).encode
          { has_stream := true, request_id := 1 } := by
  refine ⟨rfl, ?_, ?_⟩ <;>
    simp [IgniteClient.query_sql_send, IgniteClient.query_sql_fields_send,
      IgniteClient.fetchAdd, runEvents, stepEvent, IgniteClient.connect,
      IgniteClient.new, wrap_i64]

/-- C3 amended: `query_sql` and `query_sql_fields` are refused (with the
`Not connected` error, writing nothing) exactly when no stream is present,
i.e. when `connect` has not succeeded; handshake completion or failure is
not tracked and does not gate the operations. -/
theorem query_refused_iff_not_connected (α : Type) (c : IgniteClient)
    (r : QuerySqlRequest α) (rf : QuerySqlFieldsRequest α) :
    (IgniteClient.query_sql_send c r = OpResult.notConnected
        ↔ c.has_stream = false) ∧
    (IgniteClient.query_sql_fields_send c rf = OpResult.notConnected
        ↔ c.has_stream = false) := by
  unfold IgniteClient.query_sql_send IgniteClient.query_sql_fields_send
  cases hc : c.has_stream <;> simp [IgniteClient.fetchAdd]

/-- Ids issued by `n` consecutive `fetch_add(1)` calls starting from a
counter value `s` in range: the arithmetic progression `s, s+1, …`. -/
theorem allocN_spec (hs : Bool) :
    ∀ (n : Nat) (s : Int), 0 ≤ s → s + n ≤ 9223372036854775808 →
      IgniteClient.allocN ⟨hs, s⟩ n =
        (List.range n).map fun i : Nat => s + (i : Int) := by
  intro n
  induction n with
  | zero => intro s h1 h2; simp [IgniteClient.allocN]
  | succ m ih =>
    intro s h1 h2
    rw [show IgniteClient.allocN ⟨hs, s⟩ (m + 1)
        = s :: IgniteClient.allocN ⟨hs, wrap_i64 (s + 1)⟩ m from rfl]
    rw [List.range_succ_eq_map, List.map_cons, List.map_map]
    cases m with
    | zero => simp [IgniteClient.allocN]
    | succ k =>
      rw [wrap_i64_small (s + 1) (by omega) (by push_cast at h2; omega)]
      rw [ih (s + 1) (by omega) (by push_cast at h2 ⊢; omega)]
      congr 1
      · simp
      apply List.map_congr_left
      intro i _
      simp only [Function.comp_apply]
      push_cast
      ring

/-- C9: on a freshly constructed client (`AtomicI64::new(0)`), `N`
sequential request-id allocations yield exactly `0, 1, …, N-1`, a strictly
increasing sequence with no repeats; and every successful query operation
consumes exactly one identifier — it sends the current `request_id` and
advances the counter by one.  (The bound `N ≤ 2^63` is forced by the i64
counter, which would wrap beyond it.) -/
theorem request_id_sequence (N : Nat) (h : N ≤ 9223372036854775808) :
    IgniteClient.allocN IgniteClient.new N
        = ((List.range N).map fun i : Nat => (i : Int)) ∧
    (IgniteClient.allocN IgniteClient.new N).Pairwise (· < ·) ∧
    (∀ (α : Type) (c : IgniteClient) (r : QuerySqlRequest α),
      c.has_stream = true →
      IgniteClient.query_sql_send c r =
        OpResult.sent (Request.new_query_sql c.request_id r).encode
          { c with request_id := wrap_i64 (c.request_id + 1) }) ∧
    (∀ (α : Type) (c : IgniteClient) (rf : QuerySqlFieldsRequest α),
      c.has_stream = true →
      IgniteClient.query_sql_fields_send c rf =
        OpResult.sent (Request.new_query_sql_fields c.request_id rf).encode
          { c with request_id := wrap_i64 (c.request_id + 1) }) := by
  have hmain : IgniteClient.allocN IgniteClient.new N
      = ((List.range N).map fun i : Nat => (i : Int)) := by
    have := allocN_spec false N 0 le_rfl (by omega)
    rw [show IgniteClient.new = ⟨false, 0⟩ from rfl, this]
    simp
  refine ⟨hmain, ?_, ?_, ?_⟩
  · rw [hmain]
    refine List.Pairwise.map _ (fun a b hab => ?_) (List.pairwise_lt_range N)
    exact_mod_cast hab
  · intro α c r hc
    simp [IgniteClient.query_sql_send, hc, IgniteClient.fetchAdd]
  · intro α c rf hc
    simp [IgniteClient.query_sql_fields_send, hc, IgniteClient.fetchAdd]

/-- C9 witness: three allocations on a fresh client issue 0, 1, 2. -/
theorem request_id_sequence_witness :
    IgniteClient.allocN IgniteClient.new 3 = [0, 1, 2] := by
  rw [(request_id_sequence 3 (by norm_num)).1]
  decide

/-- C6: `HandshakeResponse::decode` maps any buffer whose first byte is 1 to
`Success` regardless of trailing bytes; for any other first byte (given the
six version bytes exist) it returns `Failure` with bytes 1..7 as three LE
i16 version fields and all remaining bytes as the UTF-8 error message, and
invalid UTF-8 in the message yields a decode error. -/
theorem handshake_response_decode_cases
    (e d : List Nat) (b : Nat) (maj mino pat : Int)
    (he : e[0]? = some 1)
    (hb : d[0]? = some b) (hb1 : b ≠ 1) (hlen : 7 ≤ d.length)
    (h1 : i16at d 1 = some maj) (h3 : i16at d 3 = some mino)
    (h5 : i16at d 5 = some pat) :
    HandshakeResponse.decode e = .ok .Success ∧
    (utf8Valid (d.drop 7) = true →
      HandshakeResponse.decode d = .ok (.Failure maj mino pat (d.drop 7))) ∧
    (utf8Valid (d.drop 7) = false →
      HandshakeResponse.decode d = .err .invalidData) := by
  have hde : d.isEmpty = false := by
    cases d with
    | nil => simp at hb
    | cons a t => rfl
  have hflag : (b == 1) = false := by simp [hb1]
  refine ⟨?_, ?_, ?_⟩
  · cases e with
    | nil => simp at he
    | cons a t =>
      have : a = 1 := by simpa using he
      subst this
      simp [HandshakeResponse.decode]
  · intro hv
    simp only [HandshakeResponse.decode, hde, Bool.false_eq_true, if_false,
      hb, hflag, h1, h3, h5, dropFrom?_le d 7 hlen, hv, if_true]
  · intro hv
    simp only [HandshakeResponse.decode, hde, Bool.false_eq_true, if_false,
      hb, hflag, h1, h3, h5, dropFrom?_le d 7 hlen, hv]

/-- C6 witness: the spec's concrete example decodes to
`Failure{major=1, minor=2, patch=0, error_message="bad"}`; a non-1 first
byte with an invalid UTF-8 tail is a decode error; and a first byte 1 with
trailing bytes is `Success`. -/
theorem handshake_response_decode_cases_witness :
    HandshakeResponse.decode [0, 1, 0, 2, 0, 0, 0, 98, 97, 100]
      = .ok (.Failure 1 2 0 [98, 97, 100]) ∧
    HandshakeResponse.decode [0, 1, 0, 2, 0, 0, 0, 255] = .err .invalidData ∧
    HandshakeResponse.decode [1, 7, 7] = .ok .Success := by
  have h := handshake_response_decode_cases [1, 7, 7]
    [0, 1, 0, 2, 0, 0, 0, 98, 97, 100] 0 1 2 0
    (by decide) (by decide) (by decide) (by decide)
    (by decide) (by decide) (by decide)
  have h2 := handshake_response_decode_cases [1, 7, 7]
    [0, 1, 0, 2, 0, 0, 0, 255] 0 1 2 0
    (by decide) (by decide) (by decide) (by decide)
    (by decide) (by decide) (by decide)
  exact ⟨h.2.1 (by decide), h2.2.2 (by decide), h.1⟩

/-- C7: for any response buffer whose status_code (i32 at offset 8) is
non-zero, both response decoders skip the type-marker byte at offset 12,
read the i32 message length at offset 13, return an `error_message` of
exactly that many bytes (17..17+len) decoded as UTF-8, and set the body to
the zero-valued placeholder of the requested operation (numeric fields 0,
flags false, sequences empty). -/
theorem error_response_decode
    (d : List Nat) (rid st m : Int)
    (h0 : i64at d 0 = some rid)
    (h8 : i32at d 8 = some st) (hst : st ≠ 0)
    (h13 : i32at d 13 = some m)
    (hm0 : 0 ≤ m) (hm31 : m < 2147483648)
    (hlen : 17 + m.toNat ≤ d.length)
    (hval : utf8Valid ((d.drop 17).take m.toNat) = true) :
    Response.decode_query_sql d =
      .ok { request_id := rid, status_code := st,
            error_message := (d.drop 17).take m.toNat,
            body := .QuerySql
              { cursor_id := 0, row_count := 0, has_more := false } } ∧
    Response.decode_query_sql_fields d =
      .ok { request_id := rid, status_code := st,
            error_message := (d.drop 17).take m.toNat,
            body := .QuerySqlFields
              { cursor_id := 0, column_count := 0, column_names := [],
                first_page_row_count := 0, has_more := false } } ∧
    ((d.drop 17).take m.toNat).length = m.toNat := by
  have hde : d.isEmpty = false := by
    cases d with
    | nil => simp [i64at] at h0
    | cons a t => rfl
  have husize : usizeOfI32 m = m.toNat := by
    unfold usizeOfI32
    omega
  have hslice : sliceRange? d 17 (17 + usizeOfI32 m)
      = some ((d.drop 17).take m.toNat) := by
    rw [husize]
    unfold sliceRange?
    rw [if_pos ⟨by omega, hlen⟩]
    congr 2
    omega
  refine ⟨?_, ?_, ?_⟩
  · simp [Response.decode_query_sql, hde, h0, h8, hst, h13, hslice, hval]
  · simp [Response.decode_query_sql_fields, hde, h0, h8, hst, h13, hslice, hval]
  · rw [List.length_take, List.length_drop]
    omega

/-- C7 witness: a concrete error response (request id 5, status 1, marker,
declared length 3, message "bad") decodes to the declared-length message and
a zero placeholder body in both decoders. -/
theorem error_response_decode_witness :
    Response.decode_query_sql
        [5, 0, 0, 0, 0, 0, 0, 0, 1, 0, 0, 0, 9, 3, 0, 0, 0, 98, 97, 100]
      = .ok { request_id := 5, status_code := 1,
              error_message := [98, 97, 100],
              body := .QuerySql
                { cursor_id := 0, row_count := 0, has_more := false } } ∧
    Response.decode_query_sql_fields
        [5, 0, 0, 0, 0, 0, 0, 0, 1, 0, 0, 0, 9, 3, 0, 0, 0, 98, 97, 100]
      = .ok { request_id := 5, status_code := 1,
              error_message := [98, 97, 100],
              body := .QuerySqlFields
                { cursor_id := 0, column_count := 0, column_names := [],
                  first_page_row_count := 0, has_more := false } } := by
  have h := error_response_decode
    [5, 0, 0, 0, 0, 0, 0, 0, 1, 0, 0, 0, 9, 3, 0, 0, 0, 98, 97, 100]
    5 1 3 (by decide) (by decide) (by decide) (by decide) (by decide)
    (by decide) (by decide) (by decide)
  refine ⟨?_, ?_⟩
  · rw [h.1]
    decide
  · rw [h.2.1]
    decide

/-- C2: with `has_field_names = false`, `QuerySqlFieldsResponse::decode`
reads the first-page row count (i32) at offset 12 and the has-more byte at
offset 16, immediately after the column count, returns an empty column-name
sequence, and ignores any column-name bytes entirely — appending arbitrary
extra bytes to the buffer does not change the result.  (Which of the two
decode paths runs is exactly the `has_field_names` flag of the decoder.) -/
theorem fields_decode_without_names
    (d junk : List Nat) (cid cc rc : Int) (b : Nat)
    (h0 : i64at d 0 = some cid) (h8 : i32at d 8 = some cc)
    (h12 : i32at d 12 = some rc) (h16 : d[16]? = some b) :
    QuerySqlFieldsResponse.decode d false =
      .ok { cursor_id := cid, column_count := cc, column_names := [],
            first_page_row_count := rc, has_more := b == 1 } ∧
    QuerySqlFieldsResponse.decode (d ++ junk) false =
      .ok { cursor_id := cid, column_count := cc, column_names := [],
            first_page_row_count := rc, has_more := b == 1 } := by
  have hlen : 17 ≤ d.length := by
    have := byte_some_lt h16
    omega
  have hde : d.isEmpty = false := by
    cases d with
    | nil => simp at h16
    | cons a t => rfl
  have hde2 : (d ++ junk).isEmpty = false := by
    cases d with
    | nil => simp at h16
    | cons a t => rfl
  have h0' : i64at (d ++ junk) 0 = some cid := by
    rw [i64at_keepleft d junk 0 (by omega)]
    exact h0
  have h8' : i32at (d ++ junk) 8 = some cc := by
    rw [i32at_keepleft d junk 8 (by omega)]
    exact h8
  have h12' : i32at (d ++ junk) 12 = some rc := by
    rw [i32at_keepleft d junk 12 (by omega)]
    exact h12
  have h16' : (d ++ junk)[16]? = some b := by
    rw [byte_keepleft d junk 16 (by omega)]
    exact h16
  constructor
  · simp [QuerySqlFieldsResponse.decode, hde, h0, h8, h12, h16]
  · simp [QuerySqlFieldsResponse.decode, hde2, h0', h8', h12', h16']

/-- C2 witness: a concrete 17-byte buffer (cursor id 1, column count 2, row
count 3, has-more byte 1) decodes identically with and without two appended
junk bytes, always with an empty column-name list. -/
theorem fields_decode_without_names_witness :
    QuerySqlFieldsResponse.decode
        [1, 0, 0, 0, 0, 0, 0, 0, 2, 0, 0, 0, 3, 0, 0, 0, 1] false
      = .ok { cursor_id := 1, column_count := 2, column_names := [],
              first_page_row_count := 3, has_more := true } ∧
    QuerySqlFieldsResponse.decode
        ([1, 0, 0, 0, 0, 0, 0, 0, 2, 0, 0, 0, 3, 0, 0, 0, 1] ++ [9, 9]) false
      = .ok { cursor_id := 1, column_count := 2, column_names := [],
              first_page_row_count := 3, has_more := true } := by
  have h := fields_decode_without_names
    [1, 0, 0, 0, 0, 0, 0, 0, 2, 0, 0, 0, 3, 0, 0, 0, 1] [9, 9] 1 2 3 1
    (by decide) (by decide) (by decide) (by decide)
  exact ⟨h.1, h.2⟩

/-- The emitted `QuerySqlRequest` body has exactly the declared length. -/
theorem querySql_encode_length (α : Type) (r : QuerySqlRequest α) :
    (QuerySqlRequest.encode r).length = QuerySqlRequest.lengthFn r := by
  simp only [QuerySqlRequest.encode, QuerySqlRequest.lengthFn,
    List.length_append, List.length_cons, List.length_nil,
    put_i32_le_length, put_i64_le_length, len.CACHE_ID, len.str,
    len.QUERY_ARG_COUNT, len.DISTRIBUTED_JOIN, len.LOCAL_QUERY,
    len.REPLICATED_ONLY, len.CURSOR_PAGE_SIZE, len.TIMEOUT]
  omega

/-- The emitted `QuerySqlFieldsRequest` body has exactly the declared length. -/
theorem querySqlFields_encode_length (α : Type) (r : QuerySqlFieldsRequest α) :
    (QuerySqlFieldsRequest.encode r).length
      = QuerySqlFieldsRequest.lengthFn r := by
  simp only [QuerySqlFieldsRequest.encode, QuerySqlFieldsRequest.lengthFn,
    List.length_append, List.length_cons, List.length_nil,
    put_i32_le_length, put_i64_le_length, len.CACHE_ID, len.str,
    len.CURSOR_PAGE_SIZE, len.MAX_ROWS, len.QUERY_ARG_COUNT,
    len.STATEMENT_TYPE, len.DISTRIBUTED_JOIN, len.LOCAL_QUERY,
    len.REPLICATED_ONLY, len.ENFORCE_JOIN_ORDER, len.COLLOCATED, len.LAZY,
    len.TIMEOUT, len.INCLUDE_FIELD_NAMES]
  omega

/-- `Request::length` is 2 (op code) + 8 (request id) + the body byte count. -/
theorem request_lengthFn_eq (α : Type) (r : Request α) :
    Request.lengthFn r = 2 + 8 + (Request.bodyBytes r).length := by
  obtain ⟨op, id, body⟩ := r
  cases body with
  | QuerySql q =>
    simp [Request.lengthFn, Request.bodyBytes, querySql_encode_length]
  | QuerySqlFields q =>
    simp [Request.lengthFn, Request.bodyBytes, querySqlFields_encode_length]

/-- C4: `Request::encode` writes, as its first 4 bytes, a little-endian i32
equal to the exact number of bytes that follow them — the declared payload
length excludes the length field itself, equals 2 (i16 op code) + 8 (i64
request id) + the op-specific body length, and matches the emitted byte
count.  (The bound keeps the payload length inside the i32 range the code
casts into.) -/
theorem request_encode_length_prefix (α : Type) (r : Request α)
    (h : Request.lengthFn r < 2147483648) :
    i32at (Request.encode r) 0
        = some ((((Request.encode r).length - 4 : Nat)) : Int) ∧
    (Request.encode r).length = 4 + Request.lengthFn r ∧
    Request.lengthFn r = 2 + 8 + (Request.bodyBytes r).length := by
  have hlen : (Request.encode r).length = 4 + Request.lengthFn r := by
    simp only [Request.encode, List.length_append, put_i32_le_length,
      put_i16_le_length, put_i64_le_length]
    rw [request_lengthFn_eq]
    omega
  refine ⟨?_, hlen, request_lengthFn_eq α r⟩
  have hassoc : Request.encode r
      = put_i32_le ((Request.lengthFn r : Nat))
        ++ (put_i16_le r.op_code
          ++ (put_i64_le r.request_id ++ Request.bodyBytes r)) := by
    simp [Request.encode, List.append_assoc]
  rw [hassoc, i32at_putNat _ _ h]
  congr 1
  rw [request_lengthFn_eq]
  simp only [List.length_append, put_i32_le_length, put_i16_le_length,
    put_i64_le_length]
  omega

/-- C4 witness: the length-prefix invariant evaluated on a concrete
`QuerySql` request. -/
theorem request_encode_length_prefix_witness :
    i32at (Request.encode (Request.new_query_sql 0 sampleQuerySql)) 0
        = some ((((Request.encode (Request.new_query_sql 0 sampleQuerySql)).length
            - 4 : Nat)) : Int) ∧
    (Request.encode (Request.new_query_sql 0 sampleQuerySql)).length
        = 4 + Request.lengthFn (Request.new_query_sql 0 sampleQuerySql) := by
  have h := request_encode_length_prefix Unit
    (Request.new_query_sql 0 sampleQuerySql) (by decide)
  exact ⟨h.1, h.2.1⟩

theorem i32at_cons_one (a : Nat) (l : List Nat) :
    i32at (a :: l) 1 = i32at l 0 := by
  unfold i32at
  simp

/-- Running the column-name loop over a well-formed run of column entries
reads back exactly those names and leaves the offset just past them. -/
theorem decodeColumns_spec :
    ∀ (names : List (List Nat)) (pre suffix : List Nat),
      (∀ nm ∈ names, utf8Valid nm = true ∧ nm.length < 2147483648) →
      decodeColumns (pre ++ ((names.map colEntry).flatten ++ suffix))
          names.length pre.length =
        .ok (names, pre.length + ((names.map colEntry).flatten).length) := by
  intro names
  induction names with
  | nil =>
    intro pre suffix h
    simp [decodeColumns]
  | cons nm rest ih =>
    intro pre suffix h
    have hnm := h nm (List.mem_cons_self nm rest)
    have husize : usizeOfI32 (nm.length : Nat) = nm.length :=
      usizeOfI32_ofNat nm.length hnm.2
    generalize hD : pre ++ (((nm :: rest).map colEntry).flatten ++ suffix) = D
    have hread : i32at D (pre.length + 1) = some (nm.length : Int) := by
      rw [← hD, show pre ++ (((nm :: rest).map colEntry).flatten ++ suffix)
          = pre ++ (9 :: (put_i32_le (nm.length : Nat)
            ++ (nm ++ ((rest.map colEntry).flatten ++ suffix))))
          from by simp [colEntry, List.append_assoc]]
      rw [i32at_shift, i32at_cons_one]
      exact i32at_putNat nm.length _ hnm.2
    have hlen2 : (pre ++ (9 :: put_i32_le (nm.length : Nat))).length
        = pre.length + 5 := by
      simp only [List.length_append, List.length_cons, put_i32_le_length]
    have hslice : sliceRange? D (pre.length + 5) (pre.length + 5 + nm.length)
        = some nm := by
      rw [← hD, show pre ++ (((nm :: rest).map colEntry).flatten ++ suffix)
          = (pre ++ (9 :: put_i32_le (nm.length : Nat)))
            ++ (nm ++ ((rest.map colEntry).flatten ++ suffix))
          from by simp [colEntry, List.append_assoc]]
      rw [← hlen2]
      exact sliceRange?_exact _ nm _
    have hlen3 : (pre ++ colEntry nm).length = pre.length + 5 + nm.length := by
      simp only [colEntry, List.length_append, List.length_cons,
        put_i32_le_length]
      omega
    have hrec : decodeColumns D rest.length (pre.length + 5 + nm.length)
        = .ok (rest, pre.length + 5 + nm.length
            + ((rest.map colEntry).flatten).length) := by
      rw [← hD, show pre ++ (((nm :: rest).map colEntry).flatten ++ suffix)
          = (pre ++ colEntry nm) ++ ((rest.map colEntry).flatten ++ suffix)
          from by simp [List.append_assoc]]
      rw [← hlen3]
      exact ih (pre ++ colEntry nm) suffix
        (fun nm' hm => h nm' (List.mem_cons_of_mem _ hm))
    simp only [List.length_cons]
    simp only [decodeColumns, hread, husize, hslice, hnm.1, if_true, hrec]
    simp only [List.map_cons, List.flatten_cons, List.length_append, colEntry,
      List.length_cons, put_i32_le_length]
    congr 2
    omega

/-- C8: decoding a well-formed `QuerySqlFields` success body with field
names requested reads the i64 cursor id and i32 column count, then for each
column in order skips one type-marker byte, reads an i32 name length and
that many UTF-8 bytes, appending positionally; after all columns it reads
the i32 first-page row count and the has-more byte (1 = true). -/
theorem fields_decode_with_names
    (cid rc : Int) (names : List (List Nat)) (hm : Bool)
    (hcid1 : -9223372036854775808 ≤ cid) (hcid2 : cid < 9223372036854775808)
    (hrc1 : -2147483648 ≤ rc) (hrc2 : rc < 2147483648)
    (hn : names.length < 2147483648)
    (hnames : ∀ nm ∈ names, utf8Valid nm = true ∧ nm.length < 2147483648) :
    QuerySqlFieldsResponse.decode (fieldsBuf cid names rc hm) true =
      .ok { cursor_id := cid, column_count := (names.length : Int),
            column_names := names, first_page_row_count := rc,
            has_more := hm } := by
  generalize hD : fieldsBuf cid names rc hm = D
  have hlen8 : 8 ≤ D.length := by
    rw [← hD]
    simp only [fieldsBuf, List.length_append, put_i64_le_length]
    omega
  have hde : D.isEmpty = false := by
    cases D with
    | nil => simp at hlen8
    | cons a t => rfl
  have h0 : i64at D 0 = some cid := by
    rw [← hD]
    unfold fieldsBuf
    exact i64at_put cid _ hcid1 hcid2
  have h8 : i32at D 8 = some (names.length : Int) := by
    rw [← hD]
    unfold fieldsBuf
    rw [show (8 : Nat) = (put_i64_le cid).length + 0 from by
      simp [put_i64_le_length]]
    rw [i32at_shift]
    exact i32at_putNat names.length _ hn
  have htoNat : ((names.length : Nat) : Int).toNat = names.length := by
    simp
  have hcols : decodeColumns D names.length 12
      = .ok (names, 12 + ((names.map colEntry).flatten).length) := by
    rw [← hD]
    unfold fieldsBuf
    rw [show put_i64_le cid ++ (put_i32_le (names.length : Nat)
          ++ ((names.map colEntry).flatten
            ++ (put_i32_le rc ++ [boolByte hm])))
        = (put_i64_le cid ++ put_i32_le (names.length : Nat))
          ++ ((names.map colEntry).flatten
            ++ (put_i32_le rc ++ [boolByte hm]))
        from by simp [List.append_assoc]]
    rw [show (12 : Nat)
        = (put_i64_le cid ++ put_i32_le (names.length : Nat)).length from by
      simp [put_i64_le_length, put_i32_le_length]]
    exact decodeColumns_spec names _ _ hnames
  have hrc' : i32at D (12 + ((names.map colEntry).flatten).length)
      = some rc := by
    rw [← hD]
    unfold fieldsBuf
    rw [show put_i64_le cid ++ (put_i32_le (names.length : Nat)
          ++ ((names.map colEntry).flatten
            ++ (put_i32_le rc ++ [boolByte hm])))
        = (put_i64_le cid ++ (put_i32_le (names.length : Nat)
            ++ (names.map colEntry).flatten))
          ++ (put_i32_le rc ++ [boolByte hm])
        from by simp [List.append_assoc]]
    rw [show 12 + ((names.map colEntry).flatten).length
        = (put_i64_le cid ++ (put_i32_le (names.length : Nat)
            ++ (names.map colEntry).flatten)).length + 0 from by
      simp [put_i64_le_length, put_i32_le_length, List.length_append]
      omega]
    rw [i32at_shift]
    exact i32at_put rc _ hrc1 hrc2
  have hbyte : D[12 + ((names.map colEntry).flatten).length + 4]?
      = some (boolByte hm) := by
    rw [← hD]
    unfold fieldsBuf
    rw [show put_i64_le cid ++ (put_i32_le (names.length : Nat)
          ++ ((names.map colEntry).flatten
            ++ (put_i32_le rc ++ [boolByte hm])))
        = (put_i64_le cid ++ (put_i32_le (names.length : Nat)
            ++ ((names.map colEntry).flatten ++ put_i32_le rc)))
          ++ [boolByte hm]
        from by simp [List.append_assoc]]
    rw [show 12 + ((names.map colEntry).flatten).length + 4
        = (put_i64_le cid ++ (put_i32_le (names.length : Nat)
            ++ ((names.map colEntry).flatten ++ put_i32_le rc))).length + 0
        from by
      simp [put_i64_le_length, put_i32_le_length, List.length_append]
      omega]
    rw [byte_shift]
    simp
  simp only [QuerySqlFieldsResponse.decode, hde, h0, h8, htoNat, hcols,
    hrc', hbyte, if_true]
  cases hm <;> rfl

/-- C8 witness: the spec's concrete example — column count 2, names "ID"
and "NAME", first-page row count 10, has_more true — decodes to
column_names = ["ID", "NAME"] in that order, row count 10, has_more true. -/
theorem fields_decode_with_names_witness :
    QuerySqlFieldsResponse.decode
        (fieldsBuf 7 [[73, 68], [78, 65, 77, 69]] 10 true) true
      = .ok { cursor_id := 7, column_count := 2,
              column_names := [[73, 68], [78, 65, 77, 69]],
              first_page_row_count := 10, has_more := true } := by
  have h := fields_decode_with_names 7 10 [[73, 68], [78, 65, 77, 69]] true
    (by decide) (by decide) (by decide) (by decide) (by decide)
    (by decide)
  rw [h]
  norm_num
